import Mathlib

/-!
Shallow embedding of the projectdiscovery/tinydns resolution pipeline
(src/tinydns.go, src/type.go, src/option.go, src/config.go) and proofs of
the specification claims about it.

Modelling conventions:
* Go strings are modelled as Lean `String`; the byte-level operations
  `strings.HasPrefix` / `HasSuffix` / `TrimPrefix` / `TrimSuffix` are modelled
  on the character list (`String.data`), which agrees with Go's byte-level
  semantics on the ASCII domain names and patterns involved.
* Go `uint16`/`uint32` fields are modelled as `Nat` (no claim involves
  overflow of these fields).
* The wire codec (miekg/dns) is external: a DNS answer record is a tagged
  variant `RR` carrying the data tinydns reads from it; `net.ParseIP` /
  `IP.String` normalisation is outside the model, addresses stay strings.
* Randomness (`sliceutil.PickRandom`) is modelled by an oracle
  `pick : Nat → Nat` giving the random choice made at each attempt; the
  chosen server for attempt `i` is `servers[pick i % servers.length]`.
* The upstream network exchange is an oracle
  `exchange : Nat → String → Option Msg × Option GoError` (attempt index,
  server address ↦ (response?, error?)); Go's success test `err == nil &&
  msg != nil` becomes the pattern `(some msg, none)`.
* The hybrid disk cache is a read snapshot `String → Option (List GobTok)`
  plus the list of `Set` calls the handler performs; `encoding/gob` is an
  external library, modelled as an injective token encoding `gobEncode` with
  partial inverse `gobDecode`.
* Side effects of one `ServeDNS` call are collected in a result record:
  the messages written with `w.WriteMsg`, the cache writes, and (for the
  upstream loop) the attempt count, total sleep time in milliseconds, the
  `lastErr` variable and the successful upstream response, if any.
-/

namespace TinyDns

/-- Go errors are opaque to the handler; only nil-ness and identity matter. -/
abbrev GoError := String

/-- Go byte-level `strings.HasPrefix` (src uses it in `matchesDomain`). -/
def strHasPre (s pre : String) : Bool :=
  pre.data.isPrefixOf s.data

/-- Go byte-level `strings.HasSuffix` (src uses it in `matchesDomain`). -/
def strHasSuf (s suf : String) : Bool :=
  suf.data.isSuffixOf s.data

/-- Go `strings.TrimPrefix`: drop `pre` from the front when present. -/
def strTrimPre (s pre : String) : String :=
  if strHasPre s pre then ⟨s.data.drop pre.data.length⟩ else s

/-- Go `strings.TrimSuffix`: drop `suf` from the end when present. -/
def strTrimSuf (s suf : String) : String :=
  if strHasSuf s suf then ⟨s.data.take (s.data.length - suf.data.length)⟩ else s

/-- src/tinydns.go `matchesDomain`: `*` matches everything; a pattern with
leading `*.` matches by plain string suffix of `TrimPrefix(pattern, "*")`
(the suffix therefore retains the leading dot); otherwise exact equality. -/
def matchesDomain (query pattern : String) : Bool :=
  if pattern == "*" then
    true
  else if strHasPre pattern "*." then
    strHasSuf query (strTrimPre pattern "*")
  else
    query == pattern

example : matchesDomain "bar.foo.com" "*.foo.com" = true := by decide
example : matchesDomain "xfoo.com" "*.foo.com" = false := by decide
example : matchesDomain "foo.com" "*.foo.com" = false := by decide
example : matchesDomain "anything.at.all" "*" = true := by decide
example : matchesDomain "foo.com" "foo.com" = true := by decide
example : strTrimSuf "x.com." "." = "x.com" := by decide

/-- src/type.go `MXRecord`. -/
structure MXRecord where
  Priority : Nat
  Target : String
deriving DecidableEq, Repr

/-- src/type.go `SRVRecord`. -/
structure SRVRecord where
  Priority : Nat
  Weight : Nat
  Port : Nat
  Target : String
deriving DecidableEq, Repr

/-- src/type.go `DnsRecord`: the canonical in-memory answer set.  Note the
type has no TTL field of any kind. -/
structure DnsRecord where
  A : List String := []
  AAAA : List String := []
  MX : List MXRecord := []
  TXT : List String := []
  CNAME : String := ""
  NS : List String := []
  PTR : List String := []
  SRV : List SRVRecord := []
deriving DecidableEq, Repr

instance : Inhabited DnsRecord := ⟨{}⟩

/-- Query/record type (Go `uint16` Qtype).  The eight kinds named in the
`ServeDNS` switch are explicit constructors; `other s` stands for any other
wire type, identified by its `dns.TypeToString` name `s` (empty for types
unknown to the codec). -/
inductive QType where
  | A
  | AAAA
  | MX
  | TXT
  | SRV
  | CNAME
  | NS
  | PTR
  | other (name : String)
deriving DecidableEq, Repr

/-- `dns.TypeToString[qtype]` as used in `ServeDNS`. -/
def typeToString : QType → String
  | .A => "A"
  | .AAAA => "AAAA"
  | .MX => "MX"
  | .TXT => "TXT"
  | .SRV => "SRV"
  | .CNAME => "CNAME"
  | .NS => "NS"
  | .PTR => "PTR"
  | .other s => s

/-- The `case dns.TypeA, ..., dns.TypePTR` list of the `ServeDNS` switch:
exactly the eight explicitly handled kinds. -/
def QType.isSupported : QType → Bool
  | .other _ => false
  | _ => true

/-- A wire-level DNS answer record (miekg/dns `dns.RR`), restricted to the
data tinydns reads or writes: owner name, TTL and the kind-specific data.
`other` covers record kinds outside the eight the code handles. -/
inductive RR where
  | A (name : String) (ttl : Nat) (addr : String)
  | AAAA (name : String) (ttl : Nat) (addr : String)
  | MX (name : String) (ttl : Nat) (preference : Nat) (mx : String)
  | TXT (name : String) (ttl : Nat) (txt : List String)
  | SRV (name : String) (ttl : Nat) (priority weight port : Nat) (target : String)
  | CNAME (name : String) (ttl : Nat) (target : String)
  | NS (name : String) (ttl : Nat) (ns : String)
  | PTR (name : String) (ttl : Nat) (ptr : String)
  | other (name : String) (ttl : Nat)
deriving DecidableEq, Repr

/-- TTL field of a wire answer record. -/
def RR.ttlOf : RR → Nat
  | .A _ t _ => t
  | .AAAA _ t _ => t
  | .MX _ t _ _ => t
  | .TXT _ t _ => t
  | .SRV _ t _ _ _ _ => t
  | .CNAME _ t _ => t
  | .NS _ t _ => t
  | .PTR _ t _ => t
  | .other _ t => t

/-- Rewrite the TTL field of a wire answer record. -/
def RR.mapTTL (f : Nat → Nat) : RR → RR
  | .A n t a => .A n (f t) a
  | .AAAA n t a => .AAAA n (f t) a
  | .MX n t p m => .MX n (f t) p m
  | .TXT n t x => .TXT n (f t) x
  | .SRV n t p w po tg => .SRV n (f t) p w po tg
  | .CNAME n t tg => .CNAME n (f t) tg
  | .NS n t x => .NS n (f t) x
  | .PTR n t x => .PTR n (f t) x
  | .other n t => .other n (f t)

/-- One entry of the DNS question section. -/
structure Question where
  name : String
  qtype : QType
deriving DecidableEq, Repr

/-- Zero value used for out-of-range `Question` access. -/
def defaultQuestion : Question := ⟨"", QType.other ""⟩

instance : Inhabited Question := ⟨defaultQuestion⟩

/-- A DNS message (miekg/dns `dns.Msg`), restricted to the fields tinydns
reads or writes. -/
structure Msg where
  id : Nat := 0
  response : Bool := false
  authoritative : Bool := false
  question : List Question := []
  answer : List RR := []
deriving DecidableEq, Repr

/-- miekg/dns `Msg.SetReply` called on a freshly allocated message: copies
the id, marks it a response, copies the first question; a fresh `dns.Msg`
has `Authoritative = false` and `SetReply` does not touch that flag. -/
def Msg.setReply (r : Msg) : Msg :=
  { id := r.id, response := true, authoritative := false,
    question := r.question.take 1, answer := [] }

/-- Name of the first question (`r.Question[0].Name`). -/
def qnameOf (r : Msg) : String :=
  (r.question.headD defaultQuestion).name

/-- Type of the first question (`r.Question[0].Qtype`). -/
def qtypeOf (r : Msg) : QType :=
  (r.question.headD defaultQuestion).qtype

/-- src/config.go `DNSRecord`: one validated YAML rule.  The Go field
`Type` is called `RType` here because `Type` is a Lean keyword. -/
structure DNSRecord where
  Domain : String := ""
  RType : String := ""
  Value : String := ""
  Values : List String := []
  TTL : Nat := 0
  Priority : Nat := 0
  Weight : Nat := 0
  Port : Nat := 0
  Target : String := ""
  Action : String := ""
deriving DecidableEq, Repr

/-- Abstract token of the gob-encoded byte stream stored in the cache. -/
inductive GobTok where
  | nat (n : Nat)
  | str (s : String)
deriving DecidableEq, Repr

/-- src/option.go `Options` (fields the handler reads). -/
structure Options where
  ListenAddress : String := ""
  Net : String := ""
  UpstreamServers : List String := []
  DnsRecords : String → Option DnsRecord := fun _ => none
  UseDiskCache : Bool := false
  TTL : Nat := 0
  UpstreamTimeout : Nat := 0
  UpstreamRetries : Int := 0
  FallbackResponse : Bool := false
  DefaultA : String := ""
  DefaultAAAA : String := ""

/-- The handler state `TinyDNS` (src/tinydns.go): options plus the loaded
YAML rule list when a config file was given (`t.config`, nil otherwise).
The mutable `hm` cache is passed separately as a read snapshot. -/
structure Handler where
  options : Options
  config : Option (List DNSRecord) := none

/-! ### encoding/gob, modelled

`encoding/gob` is an external Go library; it is modelled as an injective
token encoding of `DnsRecord` (strings and naturals as atomic tokens, lists
length-prefixed, fields in declaration order) with a partial decoder that
fails on any stream not of this shape — matching gob's behaviour of
round-tripping every `DnsRecord` and failing with an error on junk bytes. -/

/-- Encode one string field. -/
def encStr (s : String) : List GobTok := [GobTok.str s]

/-- Encode one `MXRecord`. -/
def encMXRecord (m : MXRecord) : List GobTok :=
  [GobTok.nat m.Priority, GobTok.str m.Target]

/-- Encode one `SRVRecord`. -/
def encSRVRecord (x : SRVRecord) : List GobTok :=
  [GobTok.nat x.Priority, GobTok.nat x.Weight, GobTok.nat x.Port, GobTok.str x.Target]

/-- Encode a list field: length prefix, then the elements. -/
def encListOf (enc : α → List GobTok) (xs : List α) : List GobTok :=
  GobTok.nat xs.length :: (xs.map enc).flatten

/-- Gob encoding of a whole `DnsRecord` (fields in declaration order). -/
def gobEncode (r : DnsRecord) : List GobTok :=
  encListOf encStr r.A ++ encListOf encStr r.AAAA ++ encListOf encMXRecord r.MX ++
    encListOf encStr r.TXT ++ encStr r.CNAME ++ encListOf encStr r.NS ++
    encListOf encStr r.PTR ++ encListOf encSRVRecord r.SRV

/-- Decode one string field. -/
def decStr : List GobTok → Option (String × List GobTok)
  | GobTok.str s :: rest => some (s, rest)
  | _ => none

/-- Decode one `MXRecord`. -/
def decMXRecord : List GobTok → Option (MXRecord × List GobTok)
  | GobTok.nat p :: GobTok.str t :: rest => some (⟨p, t⟩, rest)
  | _ => none

/-- Decode one `SRVRecord`. -/
def decSRVRecord : List GobTok → Option (SRVRecord × List GobTok)
  | GobTok.nat p :: GobTok.nat w :: GobTok.nat po :: GobTok.str t :: rest =>
    some (⟨p, w, po, t⟩, rest)
  | _ => none

/-- Decode exactly `n` consecutive elements. -/
def decCount (dec : List GobTok → Option (α × List GobTok)) :
    Nat → List GobTok → Option (List α × List GobTok)
  | 0, ts => some ([], ts)
  | n + 1, ts =>
    match dec ts with
    | none => none
    | some (x, ts1) =>
      match decCount dec n ts1 with
      | none => none
      | some (xs, ts2) => some (x :: xs, ts2)

/-- Decode a length-prefixed list field. -/
def decListOf (dec : List GobTok → Option (α × List GobTok)) :
    List GobTok → Option (List α × List GobTok)
  | GobTok.nat n :: rest => decCount dec n rest
  | _ => none

/-- Decode a whole `DnsRecord`. -/
def decDnsRecord (ts : List GobTok) : Option (DnsRecord × List GobTok) := do
  let (a, ts) ← decListOf decStr ts
  let (aaaa, ts) ← decListOf decStr ts
  let (mx, ts) ← decListOf decMXRecord ts
  let (txt, ts) ← decListOf decStr ts
  let (cname, ts) ← decStr ts
  let (ns, ts) ← decListOf decStr ts
  let (ptr, ts) ← decListOf decStr ts
  let (srv, ts) ← decListOf decSRVRecord ts
  pure (⟨a, aaaa, mx, txt, cname, ns, ptr, srv⟩, ts)

/-- `gob.Decode` into a `DnsRecord`: succeeds exactly on a full well-formed
stream, returning `none` (an error in Go) otherwise. -/
def gobDecode (ts : List GobTok) : Option DnsRecord :=
  match decDnsRecord ts with
  | some (r, []) => some r
  | _ => none

example : gobDecode (gobEncode { A := ["1.2.3.4"], CNAME := "c." }) =
    some { A := ["1.2.3.4"], CNAME := "c." } := by decide
example : gobDecode [] = none := by decide
example : gobDecode [GobTok.nat 3] = none := by decide

/-! ### Response construction -/

/-- src/tinydns.go `createResponseFromConfig`: builds the reply for a
config rule with action resolve, marking it authoritative and using the
rule's own TTL.  The Go `switch` has no case for other types, leaving the
answer section empty. -/
def createResponseFromConfig (r : Msg) (domain : String) (record : DNSRecord)
    (qtype : QType) : Msg :=
  let msg := { r.setReply with authoritative := true }
  match qtype with
  | .A =>
    let fromValue := if record.Value != "" then [RR.A domain record.TTL record.Value] else []
    { msg with answer := fromValue ++ record.Values.map (fun ip => RR.A domain record.TTL ip) }
  | .AAAA =>
    let fromValue := if record.Value != "" then [RR.AAAA domain record.TTL record.Value] else []
    { msg with answer := fromValue ++ record.Values.map (fun ip => RR.AAAA domain record.TTL ip) }
  | .MX =>
    { msg with answer := [RR.MX domain record.TTL record.Priority record.Target] }
  | .TXT =>
    { msg with answer := [RR.TXT domain record.TTL [record.Value]] }
  | .SRV =>
    { msg with answer := [RR.SRV domain record.TTL record.Priority record.Weight record.Port record.Target] }
  | .CNAME =>
    { msg with answer := [RR.CNAME domain record.TTL record.Value] }
  | .NS =>
    { msg with answer := [RR.NS domain record.TTL record.Value] }
  | .PTR =>
    { msg with answer := [RR.PTR domain record.TTL record.Value] }
  | .other _ => msg

/-- src/tinydns.go `createResponseFromDnsRecord`: builds the reply for an
in-memory / wildcard / cached `DnsRecord`, marking it authoritative; every
record is emitted with the literal TTL 60. -/
def createResponseFromDnsRecord (r : Msg) (domain : String) (rec : DnsRecord)
    (qtype : QType) : Msg :=
  let msg := { r.setReply with authoritative := true }
  match qtype with
  | .A => { msg with answer := rec.A.map (fun a => RR.A domain 60 a) }
  | .AAAA => { msg with answer := rec.AAAA.map (fun a => RR.AAAA domain 60 a) }
  | .MX => { msg with answer := rec.MX.map (fun m => RR.MX domain 60 m.Priority m.Target) }
  | .TXT => { msg with answer := rec.TXT.map (fun s => RR.TXT domain 60 [s]) }
  | .SRV => { msg with answer := rec.SRV.map (fun s => RR.SRV domain 60 s.Priority s.Weight s.Port s.Target) }
  | .CNAME =>
    { msg with answer := if rec.CNAME != "" then [RR.CNAME domain 60 rec.CNAME] else [] }
  | .NS => { msg with answer := rec.NS.map (fun n => RR.NS domain 60 n) }
  | .PTR => { msg with answer := rec.PTR.map (fun p => RR.PTR domain 60 p) }
  | .other _ => msg

/-- The `switch rr := answer.(type)` body of `extractDnsRecord`: add one
wire answer record to the accumulated `DnsRecord`.  TTLs are dropped (the
struct has no TTL field), TXT strings are joined with `strings.Join(_, "")`,
only the last CNAME is kept, and record kinds outside the eight handled
ones are ignored. -/
def extractStep (rec : DnsRecord) (rr : RR) : DnsRecord :=
  match rr with
  | .A _ _ a => { rec with A := rec.A ++ [a] }
  | .AAAA _ _ a => { rec with AAAA := rec.AAAA ++ [a] }
  | .MX _ _ p m => { rec with MX := rec.MX ++ [⟨p, m⟩] }
  | .TXT _ _ xs => { rec with TXT := rec.TXT ++ [String.join xs] }
  | .SRV _ _ p w po t => { rec with SRV := rec.SRV ++ [⟨p, w, po, t⟩] }
  | .CNAME _ _ t => { rec with CNAME := t }
  | .NS _ _ n => { rec with NS := rec.NS ++ [n] }
  | .PTR _ _ p => { rec with PTR := rec.PTR ++ [p] }
  | .other _ _ => rec

/-- src/tinydns.go `extractDnsRecord`: folds the answer records of an
upstream response into a `DnsRecord`. -/
def extractDnsRecord (msg : Msg) : DnsRecord :=
  msg.answer.foldl extractStep {}

/-! ### The resolution pipeline -/

/-- src/tinydns.go `sendFallbackOrEmpty`: fresh reply (note: `Authoritative`
is never set here), with a single synthetic A/AAAA answer of TTL 0 when the
fallback toggle is on, the query type is A or AAAA and the matching default
address is non-empty; empty answer section otherwise. -/
def sendFallbackOrEmpty (opts : Options) (r : Msg) : Msg :=
  let msg := r.setReply
  if opts.FallbackResponse && decide (0 < r.question.length) then
    let domain := qnameOf r
    match qtypeOf r with
    | .A =>
      if opts.DefaultA != "" then
        { msg with answer := [RR.A domain 0 opts.DefaultA] }
      else msg
    | .AAAA =>
      if opts.DefaultAAAA != "" then
        { msg with answer := [RR.AAAA domain 0 opts.DefaultAAAA] }
      else msg
    | _ => msg
  else msg

/-- The retry clamp in `forwardToUpstream`: `if retries <= 0 { retries = 1 }`. -/
def clampRetries (n : Int) : Nat :=
  if n ≤ 0 then 1 else n.toNat

/-- Server used at a given attempt: `sliceutil.PickRandom` modelled by the
oracle `pick`, reduced to a valid index of the (non-empty) server list. -/
def serverAt (opts : Options) (pick : Nat → Nat) (i : Nat) : String :=
  opts.UpstreamServers.getD (pick i % opts.UpstreamServers.length) ""

/-- The exchange oracle: attempt index and server address to
(response?, error?), as returned by `client.Exchange`. -/
abbrev Exchange := Nat → String → Option Msg × Option GoError

/-- Go's success test `err == nil && msg != nil` on an exchange result. -/
def exchOK : Option Msg × Option GoError → Bool
  | (some _, none) => true
  | _ => false

/-- Cache lookup key built in `handleDNSQuery`: `domain + recordType`
(plain concatenation, `domain` in trailing-dot form). -/
def cacheGetKey (domain recordType : String) : String :=
  domain ++ recordType

/-- Cache store key built in `forwardToUpstream`:
`r.Question[0].Name + recordType` (plain concatenation). -/
def cacheSetKey (qname recordType : String) : String :=
  qname ++ recordType

/-- Observable effects of one `forwardToUpstream` call: messages written,
cache `Set` calls, number of exchange attempts performed, total
`time.Sleep` milliseconds, the final value of the `lastErr` variable, and
the successful upstream response when there was one. -/
structure UpstreamTrace where
  served : List Msg
  cacheWrites : List (String × List GobTok)
  attempts : Nat
  sleepMs : Nat
  lastErr : Option GoError
  success : Bool
  upstreamMsg : Option Msg
deriving DecidableEq, Repr

/-- The retry loop of `forwardToUpstream`, by remaining fuel
(`fuel = retries - attempt`): on `err == nil && msg != nil` write the raw
upstream message unchanged, cache the extracted record when disk caching is
on and the answer section is non-empty, and stop; otherwise record the
error, sleep 100ms unless this was the last attempt, and retry.  When the
fuel runs out, fall back to `sendFallbackOrEmpty`. -/
def upstreamAttempts (opts : Options) (exchange : Exchange) (pick : Nat → Nat)
    (r : Msg) (recordType : String) :
    Nat → Nat → Option GoError → UpstreamTrace
  | 0, _, lastErr =>
    { served := [sendFallbackOrEmpty opts r], cacheWrites := [], attempts := 0,
      sleepMs := 0, lastErr := lastErr, success := false, upstreamMsg := none }
  | fuel + 1, attempt, lastErr =>
    match exchange attempt (serverAt opts pick attempt) with
    | (some msg, none) =>
      { served := [msg],
        cacheWrites :=
          if opts.UseDiskCache ∧ 0 < msg.answer.length then
            [(cacheSetKey (qnameOf r) recordType, gobEncode (extractDnsRecord msg))]
          else [],
        attempts := 1, sleepMs := 0, lastErr := lastErr, success := true,
        upstreamMsg := some msg }
    | (_, e) =>
      let rest := upstreamAttempts opts exchange pick r recordType fuel (attempt + 1) e
      { rest with attempts := rest.attempts + 1,
                  sleepMs := rest.sleepMs + (if 0 < fuel then 100 else 0) }

/-- src/tinydns.go `forwardToUpstream`: straight to fallback when no
upstream servers are configured, otherwise the retry loop with the clamped
retry count. -/
def forwardToUpstream (opts : Options) (exchange : Exchange) (pick : Nat → Nat)
    (r : Msg) (recordType : String) : UpstreamTrace :=
  if opts.UpstreamServers.length = 0 then
    { served := [sendFallbackOrEmpty opts r], cacheWrites := [], attempts := 0,
      sleepMs := 0, lastErr := none, success := false, upstreamMsg := none }
  else
    upstreamAttempts opts exchange pick r recordType
      (clampRetries opts.UpstreamRetries) 0 none

/-- Observable effects of one `ServeDNS` call: messages written, cache
writes and the raw upstream response when one was forwarded. -/
structure ServeResult where
  written : List Msg
  cacheWrites : List (String × List GobTok)
  upstreamMsg : Option Msg
deriving DecidableEq, Repr

/-- Forget the retry-loop bookkeeping. -/
def UpstreamTrace.toResult (tr : UpstreamTrace) : ServeResult :=
  ⟨tr.served, tr.cacheWrites, tr.upstreamMsg⟩

/-- src/tinydns.go `handleDNSQuery`: exact in-memory record, then literal
wildcard key `*`, then (when disk caching is on) the cache — a present
entry that fails to gob-decode falls through — then upstream. -/
def handleDNSQuery (opts : Options) (cache : String → Option (List GobTok))
    (exchange : Exchange) (pick : Nat → Nat) (r : Msg)
    (domainLookup recordType : String) (qtype : QType) : ServeResult :=
  let domain := qnameOf r
  match opts.DnsRecords domainLookup with
  | some rec => ⟨[createResponseFromDnsRecord r domain rec qtype], [], none⟩
  | none =>
    match opts.DnsRecords "*" with
    | some rec => ⟨[createResponseFromDnsRecord r domain rec qtype], [], none⟩
    | none =>
      let upstream := (forwardToUpstream opts exchange pick r recordType).toResult
      if opts.UseDiskCache then
        match cache (cacheGetKey domain recordType) with
        | some recBytes =>
          match gobDecode recBytes with
          | some rec => ⟨[createResponseFromDnsRecord r domain rec qtype], [], none⟩
          | none => upstream
        | none => upstream
      else upstream

/-- src/tinydns.go `ServeDNS`: drop questionless messages; otherwise try the
YAML rules in declaration order (first rule matching domain pattern and type
string wins: forward action goes straight upstream, anything else resolves
from the rule — `createResponseFromConfig` never returns nil, so the Go
`if msg != nil` guard always passes); with no matching rule, the eight
supported types run `handleDNSQuery` and every other type goes upstream. -/
def serveDNS (t : Handler) (cache : String → Option (List GobTok))
    (exchange : Exchange) (pick : Nat → Nat) (r : Msg) : ServeResult :=
  if r.question.length = 0 then ⟨[], [], none⟩
  else
    let question := r.question.headD defaultQuestion
    let domain := question.name
    let domainLookup := strTrimSuf domain "."
    let recordType := typeToString question.qtype
    let afterConfig : ServeResult :=
      if question.qtype.isSupported then
        handleDNSQuery t.options cache exchange pick r domainLookup recordType question.qtype
      else
        (forwardToUpstream t.options exchange pick r recordType).toResult
    match t.config with
    | none => afterConfig
    | some cfg =>
      match cfg.find? (fun rec => matchesDomain domainLookup rec.Domain && rec.RType == recordType) with
      | some rec =>
        if rec.Action == "forward" then
          (forwardToUpstream t.options exchange pick r recordType).toResult
        else
          ⟨[createResponseFromConfig r domain rec question.qtype], [], none⟩
      | none => afterConfig

/-! ### Spec-side tier cascade

A second description of the pipeline, following the specification's words:
an ordered list of tiers, each either applying (producing the final result)
or passing; the first tier that applies wins and nothing is merged.  A tier
applies when its rule/key matches — whether or not the answer it builds is
empty. -/

/-- Tier 1/2 (spec): the first config rule matching domain pattern and type,
resolving locally or diverting to upstream. -/
def configTier (t : Handler) (exchange : Exchange) (pick : Nat → Nat) (r : Msg)
    (domain domainLookup recordType : String) (qtype : QType) : Option ServeResult :=
  match t.config with
  | none => none
  | some cfg =>
    match cfg.find? (fun rec => matchesDomain domainLookup rec.Domain && rec.RType == recordType) with
    | none => none
    | some rec =>
      some <|
        if rec.Action == "forward" then
          (forwardToUpstream t.options exchange pick r recordType).toResult
        else
          ⟨[createResponseFromConfig r domain rec qtype], [], none⟩

/-- Tier 3 (spec): exact in-memory record. -/
def memoryExactTier (opts : Options) (r : Msg) (domain domainLookup : String)
    (qtype : QType) : Option ServeResult :=
  (opts.DnsRecords domainLookup).map
    (fun rec => ⟨[createResponseFromDnsRecord r domain rec qtype], [], none⟩)

/-- Tier 4 (spec): the literal wildcard key. -/
def memoryWildcardTier (opts : Options) (r : Msg) (domain : String)
    (qtype : QType) : Option ServeResult :=
  (opts.DnsRecords "*").map
    (fun rec => ⟨[createResponseFromDnsRecord r domain rec qtype], [], none⟩)

/-- Tier 5 (spec): disk cache, applying only when enabled, the key is
present and the stored bytes decode. -/
def cacheTier (opts : Options) (cache : String → Option (List GobTok)) (r : Msg)
    (domain recordType : String) (qtype : QType) : Option ServeResult :=
  if opts.UseDiskCache then
    match cache (cacheGetKey domain recordType) with
    | none => none
    | some recBytes =>
      (gobDecode recBytes).map
        (fun rec => ⟨[createResponseFromDnsRecord r domain rec qtype], [], none⟩)
  else none

/-- The pipeline as the spec words it: fixed tier order, first applying
tier wins, unsupported types skip the local tiers, questionless queries are
dropped. -/
def specTierCascade (t : Handler) (cache : String → Option (List GobTok))
    (exchange : Exchange) (pick : Nat → Nat) (r : Msg) : ServeResult :=
  match r.question with
  | [] => ⟨[], [], none⟩
  | q :: _ =>
    let domain := q.name
    let domainLookup := strTrimSuf domain "."
    let recordType := typeToString q.qtype
    match configTier t exchange pick r domain domainLookup recordType q.qtype with
    | some res => res
    | none =>
      if q.qtype.isSupported then
        match memoryExactTier t.options r domain domainLookup q.qtype with
        | some res => res
        | none =>
          match memoryWildcardTier t.options r domain q.qtype with
          | some res => res
          | none =>
            match cacheTier t.options cache r domain recordType q.qtype with
            | some res => res
            | none => (forwardToUpstream t.options exchange pick r recordType).toResult
      else
        (forwardToUpstream t.options exchange pick r recordType).toResult

/-- The translated handler and the spec-side cascade agree everywhere. -/
theorem serveDNS_eq_cascade (t : Handler) (cache : String → Option (List GobTok))
    (exchange : Exchange) (pick : Nat → Nat) (r : Msg) :
    serveDNS t cache exchange pick r = specTierCascade t cache exchange pick r := by
  rcases hq : r.question with _ | ⟨q, qs⟩
  · simp [serveDNS, specTierCascade, hq]
  · have hname : qnameOf r = q.name := by simp [qnameOf, hq]
    simp only [serveDNS, specTierCascade, configTier, handleDNSQuery,
      memoryExactTier, memoryWildcardTier, cacheTier, hq, hname,
      List.length_cons, List.headD_cons, Nat.succ_ne_zero, if_false]
    rcases hc : t.config with _ | cfg <;>
      [skip;
       (rcases hf : cfg.find?
           (fun rec => matchesDomain (strTrimSuf q.name ".") rec.Domain &&
             rec.RType == typeToString q.qtype) with _ | rec0 <;>
        simp only [hf])] <;>
      first
        | (simp; done)
        | (rcases hrec : t.options.DnsRecords (strTrimSuf q.name ".") with _ | rec <;>
           rcases hwild : t.options.DnsRecords "*" with _ | wrec <;>
           cases hsup : QType.isSupported q.qtype <;>
           cases hdc : t.options.UseDiskCache <;>
           rcases hcache : cache (cacheGetKey q.name (typeToString q.qtype)) with _ | bs <;>
           first
             | (simp [hrec, hwild, hsup, hdc, hcache]; done)
             | (rcases hdec : gobDecode bs with _ | rec2 <;>
                simp [hrec, hwild, hsup, hdc, hcache, hdec]))

/-! ### Behaviour of the upstream retry loop -/

/-- Cache writes of the retry loop: exactly one write, of the extracted
record under the concatenated key, when the loop succeeded with disk
caching on and a non-empty answer section; none otherwise. -/
theorem ua_cacheWrites (opts : Options) (ex : Exchange) (pick : Nat → Nat)
    (r : Msg) (rt : String) (fuel attempt : Nat) (le : Option GoError) :
    (upstreamAttempts opts ex pick r rt fuel attempt le).cacheWrites =
      (match (upstreamAttempts opts ex pick r rt fuel attempt le).upstreamMsg with
       | some m =>
         if opts.UseDiskCache ∧ 0 < m.answer.length then
           [(cacheSetKey (qnameOf r) rt, gobEncode (extractDnsRecord m))]
         else []
       | none => []) := by
  induction fuel generalizing attempt le with
  | zero => rfl
  | succ n ih =>
    simp only [upstreamAttempts]
    rcases hx : ex attempt (serverAt opts pick attempt) with ⟨mo, eo⟩
    rcases mo with _ | m <;> rcases eo with _ | e <;> simp [ih]

/-- Served message of the retry loop: `some` upstream response is written
verbatim exactly when the loop succeeded. -/
theorem ua_served (opts : Options) (ex : Exchange) (pick : Nat → Nat)
    (r : Msg) (rt : String) (fuel attempt : Nat) (le : Option GoError) :
    (upstreamAttempts opts ex pick r rt fuel attempt le).served =
      (match (upstreamAttempts opts ex pick r rt fuel attempt le).upstreamMsg with
       | some m => [m]
       | none => [sendFallbackOrEmpty opts r]) := by
  induction fuel generalizing attempt le with
  | zero => rfl
  | succ n ih =>
    simp only [upstreamAttempts]
    rcases hx : ex attempt (serverAt opts pick attempt) with ⟨mo, eo⟩
    rcases mo with _ | m <;> rcases eo with _ | e <;> simp [ih]

/-- First success at relative attempt `k`: the loop stops there, writes the
upstream message verbatim, has performed `k + 1` exchanges and slept 100ms
after each of the `k` failed attempts. -/
theorem ua_first_success (opts : Options) (ex : Exchange) (pick : Nat → Nat)
    (r : Msg) (rt : String) (m : Msg) :
    ∀ (k fuel attempt : Nat) (le : Option GoError),
      k < fuel →
      (∀ i, i < k → exchOK (ex (attempt + i) (serverAt opts pick (attempt + i))) = false) →
      ex (attempt + k) (serverAt opts pick (attempt + k)) = (some m, none) →
      (upstreamAttempts opts ex pick r rt fuel attempt le).served = [m] ∧
      (upstreamAttempts opts ex pick r rt fuel attempt le).attempts = k + 1 ∧
      (upstreamAttempts opts ex pick r rt fuel attempt le).sleepMs = 100 * k ∧
      (upstreamAttempts opts ex pick r rt fuel attempt le).success = true ∧
      (upstreamAttempts opts ex pick r rt fuel attempt le).upstreamMsg = some m := by
  intro k
  induction k with
  | zero =>
    intro fuel attempt le hlt _ hex
    rcases fuel with _ | n
    · omega
    · simp only [Nat.add_zero] at hex
      simp [upstreamAttempts, hex]
  | succ k ih =>
    intro fuel attempt le hlt hfail hex
    rcases fuel with _ | n
    · omega
    · have h0 : exchOK (ex attempt (serverAt opts pick attempt)) = false := by
        have := hfail 0 (Nat.succ_pos k)
        simpa using this
      have hfail' : ∀ i, i < k →
          exchOK (ex (attempt + 1 + i) (serverAt opts pick (attempt + 1 + i))) = false := by
        intro i hi
        have heq : attempt + 1 + i = attempt + (i + 1) := by omega
        rw [heq]
        exact hfail (i + 1) (by omega)
      have hex' : ex (attempt + 1 + k) (serverAt opts pick (attempt + 1 + k)) = (some m, none) := by
        have heq : attempt + 1 + k = attempt + (k + 1) := by omega
        rw [heq]; exact hex
      have hn : k < n := by omega
      rcases hx : ex attempt (serverAt opts pick attempt) with ⟨mo, eo⟩
      have step : upstreamAttempts opts ex pick r rt (n + 1) attempt le =
          (let rest := upstreamAttempts opts ex pick r rt n (attempt + 1) eo
           { rest with attempts := rest.attempts + 1,
                       sleepMs := rest.sleepMs + (if 0 < n then 100 else 0) }) := by
        rcases mo with _ | m0 <;> rcases eo with _ | e
        · simp [upstreamAttempts, hx]
        · simp [upstreamAttempts, hx]
        · rw [hx] at h0; simp [exchOK] at h0
        · simp [upstreamAttempts, hx]
      have hrest := ih n (attempt + 1) eo hn hfail' hex'
      rw [step]
      simp only []
      refine ⟨hrest.1, ?_, ?_, hrest.2.2.2.1, hrest.2.2.2.2⟩
      · rw [hrest.2.1]
      · rw [hrest.2.2.1]
        have : 0 < n := by omega
        simp [this]
        ring

/-- All `fuel` attempts fail: the loop sends the fallback/empty reply, has
slept `100 * (fuel - 1)` ms (no sleep after the final attempt) and reports
the error observed on the final attempt. -/
theorem ua_all_fail (opts : Options) (ex : Exchange) (pick : Nat → Nat)
    (r : Msg) (rt : String) :
    ∀ (fuel attempt : Nat) (le : Option GoError),
      0 < fuel →
      (∀ i, i < fuel → exchOK (ex (attempt + i) (serverAt opts pick (attempt + i))) = false) →
      (upstreamAttempts opts ex pick r rt fuel attempt le).success = false ∧
      (upstreamAttempts opts ex pick r rt fuel attempt le).served = [sendFallbackOrEmpty opts r] ∧
      (upstreamAttempts opts ex pick r rt fuel attempt le).attempts = fuel ∧
      (upstreamAttempts opts ex pick r rt fuel attempt le).sleepMs = 100 * (fuel - 1) ∧
      (upstreamAttempts opts ex pick r rt fuel attempt le).lastErr =
        (ex (attempt + fuel - 1) (serverAt opts pick (attempt + fuel - 1))).2 := by
  intro fuel
  induction fuel with
  | zero => intro attempt le h; omega
  | succ n ih =>
    intro attempt le _ hfail
    have h0 : exchOK (ex attempt (serverAt opts pick attempt)) = false := by
      have := hfail 0 (Nat.succ_pos n)
      simpa using this
    rcases hx : ex attempt (serverAt opts pick attempt) with ⟨mo, eo⟩
    have step : upstreamAttempts opts ex pick r rt (n + 1) attempt le =
        (let rest := upstreamAttempts opts ex pick r rt n (attempt + 1) eo
         { rest with attempts := rest.attempts + 1,
                     sleepMs := rest.sleepMs + (if 0 < n then 100 else 0) }) := by
      rcases mo with _ | m0 <;> rcases eo with _ | e
      · simp [upstreamAttempts, hx]
      · simp [upstreamAttempts, hx]
      · rw [hx] at h0; simp [exchOK] at h0
      · simp [upstreamAttempts, hx]
    rw [step]
    rcases n with _ | n
    · refine ⟨rfl, rfl, rfl, rfl, ?_⟩
      simp only [upstreamAttempts]
      have : attempt + 1 - 1 = attempt := by omega
      rw [this, hx]
    · have hfail' : ∀ i, i < n + 1 →
          exchOK (ex (attempt + 1 + i) (serverAt opts pick (attempt + 1 + i))) = false := by
        intro i hi
        have heq : attempt + 1 + i = attempt + (i + 1) := by omega
        rw [heq]
        exact hfail (i + 1) (by omega)
      have hrest := ih (attempt + 1) eo (Nat.succ_pos n) hfail'
      simp only []
      refine ⟨hrest.1, hrest.2.1, ?_, ?_, ?_⟩
      · rw [hrest.2.2.1]
      · rw [hrest.2.2.2.1]
        have h1 : (0 : Nat) < n + 1 := Nat.succ_pos n
        simp only [h1, if_true]
        omega
      · rw [hrest.2.2.2.2]
        have heq : attempt + 1 + (n + 1) - 1 = attempt + (n + 1 + 1) - 1 := by omega
        rw [heq]

/-! ### Round trip of the cache serialization -/

theorem decStr_enc (s : String) (rest : List GobTok) :
    decStr (encStr s ++ rest) = some (s, rest) := rfl

theorem decMX_enc (m : MXRecord) (rest : List GobTok) :
    decMXRecord (encMXRecord m ++ rest) = some (m, rest) := rfl

theorem decSRV_enc (x : SRVRecord) (rest : List GobTok) :
    decSRVRecord (encSRVRecord x ++ rest) = some (x, rest) := rfl

/-- Decoding the length-prefixed encoding of any list recovers it, for any
element codec that round-trips. -/
theorem decListOf_enc (dec : List GobTok → Option (α × List GobTok))
    (enc : α → List GobTok)
    (h : ∀ x rest, dec (enc x ++ rest) = some (x, rest)) (xs : List α)
    (rest : List GobTok) :
    decListOf dec (encListOf enc xs ++ rest) = some (xs, rest) := by
  suffices hcount : ∀ (ys : List α) (rs : List GobTok),
      decCount dec ys.length ((ys.map enc).flatten ++ rs) = some (ys, rs) by
    simp only [encListOf, List.cons_append, decListOf]
    exact hcount xs rest
  intro ys
  induction ys with
  | nil => intro rs; rfl
  | cons y ys ih =>
    intro rs
    simp only [List.length_cons, List.map_cons, List.flatten_cons, List.append_assoc,
      decCount, h, ih]

theorem decListStr_enc (xs : List String) (rest : List GobTok) :
    decListOf decStr (encListOf encStr xs ++ rest) = some (xs, rest) :=
  decListOf_enc decStr encStr decStr_enc xs rest

theorem decListMX_enc (xs : List MXRecord) (rest : List GobTok) :
    decListOf decMXRecord (encListOf encMXRecord xs ++ rest) = some (xs, rest) :=
  decListOf_enc decMXRecord encMXRecord decMX_enc xs rest

theorem decListSRV_enc (xs : List SRVRecord) (rest : List GobTok) :
    decListOf decSRVRecord (encListOf encSRVRecord xs ++ rest) = some (xs, rest) :=
  decListOf_enc decSRVRecord encSRVRecord decSRV_enc xs rest

/-- Decoding the encoding of any `DnsRecord` recovers it and consumes
exactly the encoded tokens. -/
theorem decDnsRecord_enc (r : DnsRecord) (rest : List GobTok) :
    decDnsRecord (gobEncode r ++ rest) = some (r, rest) := by
  simp only [gobEncode, List.append_assoc, decDnsRecord, decListStr_enc, decListMX_enc,
    decListSRV_enc, decStr_enc, Option.bind_eq_bind, Option.some_bind]
  rfl

/-- Full round trip of the gob model. -/
theorem gobDecode_gobEncode (r : DnsRecord) : gobDecode (gobEncode r) = some r := by
  have h := decDnsRecord_enc r []
  rw [List.append_nil] at h
  simp [gobDecode, h]

/-! ### Cache writes and served message of `forwardToUpstream` -/

/-- `forwardToUpstream` writes to the cache exactly on upstream success
with disk caching enabled and a non-empty upstream answer section. -/
theorem forward_cacheWrites (opts : Options) (ex : Exchange) (pick : Nat → Nat)
    (r : Msg) (rt : String) :
    (forwardToUpstream opts ex pick r rt).cacheWrites =
      (match (forwardToUpstream opts ex pick r rt).upstreamMsg with
       | some m =>
         if opts.UseDiskCache ∧ 0 < m.answer.length then
           [(cacheSetKey (qnameOf r) rt, gobEncode (extractDnsRecord m))]
         else []
       | none => []) := by
  unfold forwardToUpstream
  split
  · rfl
  · exact ua_cacheWrites opts ex pick r rt _ 0 none

/-- `forwardToUpstream` writes the raw upstream response exactly on
success, the fallback/empty reply otherwise. -/
theorem forward_served (opts : Options) (ex : Exchange) (pick : Nat → Nat)
    (r : Msg) (rt : String) :
    (forwardToUpstream opts ex pick r rt).served =
      (match (forwardToUpstream opts ex pick r rt).upstreamMsg with
       | some m => [m]
       | none => [sendFallbackOrEmpty opts r]) := by
  unfold forwardToUpstream
  split
  · rfl
  · exact ua_served opts ex pick r rt _ 0 none

/-! ### Congruence: the upstream path never reads the record store -/

/-- `sendFallbackOrEmpty` reads only the fallback toggle and default
addresses of the options. -/
theorem sendFallback_congr (o1 o2 : Options) (r : Msg)
    (hf : o1.FallbackResponse = o2.FallbackResponse)
    (hA : o1.DefaultA = o2.DefaultA) (hAAAA : o1.DefaultAAAA = o2.DefaultAAAA) :
    sendFallbackOrEmpty o1 r = sendFallbackOrEmpty o2 r := by
  unfold sendFallbackOrEmpty
  rw [hf, hA, hAAAA]

/-- The retry loop reads only the server list, the disk-cache toggle and
the fallback options — never `DnsRecords` and never the cache. -/
theorem ua_congr (o1 o2 : Options) (ex : Exchange) (pick : Nat → Nat)
    (r : Msg) (rt : String)
    (hs : o1.UpstreamServers = o2.UpstreamServers)
    (hd : o1.UseDiskCache = o2.UseDiskCache)
    (hf : o1.FallbackResponse = o2.FallbackResponse)
    (hA : o1.DefaultA = o2.DefaultA) (hAAAA : o1.DefaultAAAA = o2.DefaultAAAA) :
    ∀ (fuel attempt : Nat) (le : Option GoError),
      upstreamAttempts o1 ex pick r rt fuel attempt le =
        upstreamAttempts o2 ex pick r rt fuel attempt le := by
  intro fuel
  induction fuel with
  | zero =>
    intro attempt le
    simp only [upstreamAttempts]
    rw [sendFallback_congr o1 o2 r hf hA hAAAA]
  | succ n ih =>
    intro attempt le
    have hserver : serverAt o1 pick attempt = serverAt o2 pick attempt := by
      unfold serverAt; rw [hs]
    simp only [upstreamAttempts, hserver]
    rcases hx : ex attempt (serverAt o2 pick attempt) with ⟨mo, eo⟩
    rcases mo with _ | m <;> rcases eo with _ | e <;> simp [ih, hd]

/-- `forwardToUpstream` reads only the upstream/fallback options — never
`DnsRecords` and never the cache. -/
theorem forward_congr (o1 o2 : Options) (ex : Exchange) (pick : Nat → Nat)
    (r : Msg) (rt : String)
    (hs : o1.UpstreamServers = o2.UpstreamServers)
    (hr : o1.UpstreamRetries = o2.UpstreamRetries)
    (hd : o1.UseDiskCache = o2.UseDiskCache)
    (hf : o1.FallbackResponse = o2.FallbackResponse)
    (hA : o1.DefaultA = o2.DefaultA) (hAAAA : o1.DefaultAAAA = o2.DefaultAAAA) :
    forwardToUpstream o1 ex pick r rt = forwardToUpstream o2 ex pick r rt := by
  unfold forwardToUpstream
  rw [hs, hr, sendFallback_congr o1 o2 r hf hA hAAAA,
    ua_congr o1 o2 ex pick r rt hs hd hf hA hAAAA]

/-! ### Assorted helper lemmas -/

/-- A pattern that starts with the two characters `*.` is not the
one-character pattern `*`. -/
theorem star_dot_ne_star (p : String) (hpre : strHasPre p "*." = true) :
    (p == "*") = false := by
  rcases p with ⟨pd⟩
  unfold strHasPre at hpre
  rcases pd with _ | ⟨a, _ | ⟨b, t⟩⟩
  · simp [List.isPrefixOf] at hpre
  · simp [show ("*.".data : List Char) = ['*', '.'] from rfl, List.isPrefixOf] at hpre
  · rw [beq_eq_false_iff_ne]
    intro h
    have hd : a :: b :: t = ("*".data : List Char) := congrArg String.data h
    simp [show ("*".data : List Char) = ['*'] from rfl] at hd

/-- `toResult` version of `forward_cacheWrites`. -/
theorem forwardResult_cacheWrites (opts : Options) (ex : Exchange) (pick : Nat → Nat)
    (r : Msg) (rt : String) :
    (forwardToUpstream opts ex pick r rt).toResult.cacheWrites =
      (match (forwardToUpstream opts ex pick r rt).toResult.upstreamMsg with
       | some m =>
         if opts.UseDiskCache ∧ 0 < m.answer.length then
           [(cacheSetKey (qnameOf r) rt, gobEncode (extractDnsRecord m))]
         else []
       | none => []) :=
  forward_cacheWrites opts ex pick r rt

/-- The fallback/empty reply never carries the authoritative flag:
`sendFallbackOrEmpty` builds its message with `new(dns.Msg)` + `SetReply`
and, unlike the other response builders, never assigns `Authoritative`. -/
theorem sendFallback_auth (opts : Options) (r : Msg) :
    (sendFallbackOrEmpty opts r).authoritative = false := by
  unfold sendFallbackOrEmpty
  split
  · cases qtypeOf r <;> simp only [] <;> (try split) <;> rfl
  · rfl

/-- Extraction of a `DnsRecord` from an upstream response is invariant
under arbitrary rewriting of the answer TTLs: the fold reads no TTL. -/
theorem extract_mapTTL (f : Nat → Nat) (msg : Msg) :
    extractDnsRecord { msg with answer := msg.answer.map (RR.mapTTL f) } =
      extractDnsRecord msg := by
  show (msg.answer.map (RR.mapTTL f)).foldl extractStep {} = msg.answer.foldl extractStep {}
  generalize ({} : DnsRecord) = acc
  induction msg.answer generalizing acc with
  | nil => rfl
  | cons rr l ih =>
    have hstep : extractStep acc (RR.mapTTL f rr) = extractStep acc rr := by
      cases rr <;> rfl
    simp only [List.map_cons, List.foldl_cons, hstep, ih]

/-! ### The claims -/

/-- C4, counterexample: the literal suffix used for a `*.`-pattern is
`TrimPrefix(pattern, "*")`, which keeps the dot, so `xfoo.com` does NOT
match `*.foo.com` — contrary to the claim. -/
theorem claim_C4_counterexample : matchesDomain "xfoo.com" "*.foo.com" = false := by
  decide

/-- C4 (amended): a pattern of exactly `*` matches every domain; a pattern
prefixed `*.` matches exactly the domains ending (plain string suffix) with
the pattern minus its asterisk — the suffix retains the leading dot, so
`bar.foo.com` matches `*.foo.com` while `xfoo.com` and `foo.com` do not;
any other pattern matches only the identical string. -/
theorem claim_C4_domain_pattern_matching (q p : String) :
    matchesDomain q "*" = true ∧
    (strHasPre p "*." = true → matchesDomain q p = strHasSuf q (strTrimPre p "*")) ∧
    (p ≠ "*" → strHasPre p "*." = false → matchesDomain q p = (q == p)) ∧
    (matchesDomain "bar.foo.com" "*.foo.com" = true ∧
     matchesDomain "xfoo.com" "*.foo.com" = false ∧
     matchesDomain "foo.com" "*.foo.com" = false) := by
  refine ⟨by simp [matchesDomain], ?_, ?_, by decide⟩
  · intro hpre
    simp [matchesDomain, star_dot_ne_star p hpre, hpre]
  · intro hne hnp
    have hb : (p == "*") = false := beq_eq_false_iff_ne.mpr hne
    simp [matchesDomain, hb, hnp]

/-- C4, witness for the amended claim at concrete inputs. -/
theorem claim_C4_witness :
    matchesDomain "bar.b.co" "*.b.co" = strHasSuf "bar.b.co" (strTrimPre "*.b.co" "*") ∧
    matchesDomain "c.d" "e.f" = ("c.d" == "e.f") :=
  ⟨(claim_C4_domain_pattern_matching "bar.b.co" "*.b.co").2.1 (by decide),
   (claim_C4_domain_pattern_matching "c.d" "e.f").2.2.1 (by decide) (by decide)⟩

/-- C8: serializing any `DnsRecord` and deserializing the stored bytes
yields the original record, and the cache get key (`handleDNSQuery`) and
set key (`forwardToUpstream`) are built identically — plain concatenation
of domain and record-type name with no separator. -/
theorem claim_C8_cache_roundtrip :
    (∀ rec : DnsRecord, gobDecode (gobEncode rec) = some rec) ∧
    ∀ domain recordType : String,
      cacheGetKey domain recordType = cacheSetKey domain recordType :=
  ⟨gobDecode_gobEncode, fun _ _ => rfl⟩

/-- C10: every answer record built from a `DnsRecord` (memory exact,
wildcard and cache-hit tiers all go through `createResponseFromDnsRecord`,
which takes no options and hence cannot read `Options.TTL`) carries the
literal TTL 60, for every record type; and extraction of a cacheable record
from an upstream response is invariant under arbitrary rewriting of the
upstream TTLs, since `DnsRecord` stores none of them. -/
theorem claim_C10_fixed_ttl_sixty (r : Msg) (domain : String) (rec : DnsRecord)
    (qt : QType) :
    (createResponseFromDnsRecord r domain rec qt).answer.all
      (fun rr => rr.ttlOf == 60) = true ∧
    ∀ (f : Nat → Nat) (msg : Msg),
      extractDnsRecord { msg with answer := msg.answer.map (RR.mapTTL f) } =
        extractDnsRecord msg := by
  refine ⟨?_, fun f msg => extract_mapTTL f msg⟩
  cases qt <;>
    simp [createResponseFromDnsRecord, List.all_eq_true, RR.ttlOf, Msg.setReply]

/-- C9: when the memory tiers miss, disk caching is on and the cached bytes
for the key fail to gob-decode, the pipeline behaves exactly as on a cache
miss — it continues to the upstream tier, and the result is the same as
with any cache that has no entry for this key at all; no error response is
produced. -/
theorem claim_C9_cache_decode_failure_is_miss (opts : Options)
    (cache : String → Option (List GobTok)) (ex : Exchange) (pick : Nat → Nat)
    (r : Msg) (domainLookup recordType : String) (qt : QType) (bs : List GobTok)
    (hmem : opts.DnsRecords domainLookup = none)
    (hwild : opts.DnsRecords "*" = none)
    (hdc : opts.UseDiskCache = true)
    (hbs : cache (cacheGetKey (qnameOf r) recordType) = some bs)
    (hdec : gobDecode bs = none) :
    handleDNSQuery opts cache ex pick r domainLookup recordType qt =
      (forwardToUpstream opts ex pick r recordType).toResult ∧
    ∀ cache2 : String → Option (List GobTok),
      cache2 (cacheGetKey (qnameOf r) recordType) = none →
      handleDNSQuery opts cache ex pick r domainLookup recordType qt =
        handleDNSQuery opts cache2 ex pick r domainLookup recordType qt := by
  constructor
  · unfold handleDNSQuery
    simp [hmem, hwild, hdc, hbs, hdec]
  · intro cache2 h2
    unfold handleDNSQuery
    simp [hmem, hwild, hdc, hbs, hdec, h2]

/-- C9, witness: undecodable cached bytes (the empty token stream) at the
queried key send the query upstream, identically to an empty cache. -/
theorem claim_C9_witness :
    handleDNSQuery { UseDiskCache := true } (fun _ => some []) (fun _ _ => (none, none))
        (fun _ => 0) { question := [⟨"u.com.", QType.A⟩] } "u.com" "A" QType.A =
      (forwardToUpstream { UseDiskCache := true } (fun _ _ => (none, none))
        (fun _ => 0) { question := [⟨"u.com.", QType.A⟩] } "A").toResult :=
  (claim_C9_cache_decode_failure_is_miss { UseDiskCache := true } (fun _ => some [])
    (fun _ _ => (none, none)) (fun _ => 0) { question := [⟨"u.com.", QType.A⟩] }
    "u.com" "A" QType.A [] (by decide) (by decide) (by decide) (by decide)
    (by decide)).1

/-- C5, counterexample: the fallback-or-empty terminal branch (here: no
upstream servers configured, fallback disabled) writes a response whose
authoritative flag is NOT set, contrary to the claim that every terminal
branch except raw-upstream-success marks the response authoritative. -/
theorem claim_C5_counterexample :
    (serveDNS ⟨{}, none⟩ (fun _ => none) (fun _ _ => (none, none)) (fun _ => 0)
        { question := [⟨"a.com.", QType.A⟩] }).written =
      [sendFallbackOrEmpty {} { question := [⟨"a.com.", QType.A⟩] }] ∧
    (sendFallbackOrEmpty {} { question := [⟨"a.com.", QType.A⟩] }).authoritative = false := by
  decide

/-- C5 (amended): the config-resolve, memory-exact, memory-wildcard and
cache-hit branches mark their responses authoritative; the raw upstream
response is forwarded verbatim (authority bit unchanged); but the
fallback-or-empty branch (`sendFallbackOrEmpty`) never sets the flag, so
its responses are not authoritative. -/
theorem claim_C5_authoritative_flag (r m : Msg) (domain : String)
    (record : DNSRecord) (rec : DnsRecord) (qt : QType) (opts : Options)
    (ex : Exchange) (pick : Nat → Nat) (rt : String) :
    (createResponseFromConfig r domain record qt).authoritative = true ∧
    (createResponseFromDnsRecord r domain rec qt).authoritative = true ∧
    (sendFallbackOrEmpty opts r).authoritative = false ∧
    ((forwardToUpstream opts ex pick r rt).upstreamMsg = some m →
      (forwardToUpstream opts ex pick r rt).served = [m]) := by
  refine ⟨?_, ?_, sendFallback_auth opts r, ?_⟩
  · cases qt <;> rfl
  · cases qt <;> rfl
  · intro h
    rw [forward_served, h]

/-- C5, witness: the raw-upstream-success conjunct at a concrete run in
which the first exchange succeeds. -/
theorem claim_C5_witness :
    (forwardToUpstream { UpstreamServers := ["1.0.0.1:53"], UpstreamRetries := 1 }
        (fun _ _ => (some { answer := [RR.A "w.com." 300 "5.6.7.8"] }, none)) (fun _ => 0)
        { question := [⟨"w.com.", QType.A⟩] } "A").served =
      [{ answer := [RR.A "w.com." 300 "5.6.7.8"] }] :=
  (claim_C5_authoritative_flag { question := [⟨"w.com.", QType.A⟩] }
    { answer := [RR.A "w.com." 300 "5.6.7.8"] } "" {} {} QType.A
    { UpstreamServers := ["1.0.0.1:53"], UpstreamRetries := 1 }
    (fun _ _ => (some { answer := [RR.A "w.com." 300 "5.6.7.8"] }, none))
    (fun _ => 0) "A").2.2.2 (by decide)

/-- C6: when the upstream loop ends without a success the pipeline sends
exactly `sendFallbackOrEmpty`, and that synthesis yields zero answer
records when the fallback toggle is off, the query type is neither A nor
AAAA, or the default address for the queried type is empty — and exactly
one record of the requested type with the configured default address and
TTL 0 otherwise. -/
theorem claim_C6_fallback_synthesis (opts : Options) (ex : Exchange)
    (pick : Nat → Nat) (r : Msg) (q : Question) (qs : List Question) (rt : String)
    (hq : r.question = q :: qs) :
    ((forwardToUpstream opts ex pick r rt).upstreamMsg = none →
      (forwardToUpstream opts ex pick r rt).served = [sendFallbackOrEmpty opts r]) ∧
    (opts.FallbackResponse = false → (sendFallbackOrEmpty opts r).answer = []) ∧
    (q.qtype ≠ QType.A → q.qtype ≠ QType.AAAA → (sendFallbackOrEmpty opts r).answer = []) ∧
    (q.qtype = QType.A → opts.DefaultA = "" → (sendFallbackOrEmpty opts r).answer = []) ∧
    (q.qtype = QType.AAAA → opts.DefaultAAAA = "" → (sendFallbackOrEmpty opts r).answer = []) ∧
    (opts.FallbackResponse = true → q.qtype = QType.A → opts.DefaultA ≠ "" →
      (sendFallbackOrEmpty opts r).answer = [RR.A q.name 0 opts.DefaultA]) ∧
    (opts.FallbackResponse = true → q.qtype = QType.AAAA → opts.DefaultAAAA ≠ "" →
      (sendFallbackOrEmpty opts r).answer = [RR.AAAA q.name 0 opts.DefaultAAAA]) := by
  have htq : qtypeOf r = q.qtype := by simp [qtypeOf, hq]
  have htn : qnameOf r = q.name := by simp [qnameOf, hq]
  refine ⟨?_, ?_, ?_, ?_, ?_, ?_, ?_⟩
  · intro h
    rw [forward_served, h]
  · intro hfb
    simp [sendFallbackOrEmpty, hfb, Msg.setReply]
  · intro hA hAAAA
    unfold sendFallbackOrEmpty
    split
    · rw [htq]
      rcases hqt : q.qtype <;> simp_all [Msg.setReply]
    · simp [Msg.setReply]
  · intro hqt hda
    unfold sendFallbackOrEmpty
    split
    · rw [htq, hqt]
      simp [hda, Msg.setReply]
    · simp [Msg.setReply]
  · intro hqt hda
    unfold sendFallbackOrEmpty
    split
    · rw [htq, hqt]
      simp [hda, Msg.setReply]
    · simp [Msg.setReply]
  · intro hfb hqt hda
    have hcond : (opts.FallbackResponse && decide (0 < r.question.length)) = true := by
      rw [hq, hfb]; simp
    simp only [sendFallbackOrEmpty, hcond, if_true, htq, hqt, htn]
    simp [hda]
  · intro hfb hqt hda
    have hcond : (opts.FallbackResponse && decide (0 < r.question.length)) = true := by
      rw [hq, hfb]; simp
    simp only [sendFallbackOrEmpty, hcond, if_true, htq, hqt, htn]
    simp [hda]

/-- C6, witness: fallback enabled with `defaultA = "127.0.0.1"`: a failed A
query synthesizes exactly one A record with TTL 0, an AAAA query with no
default configured returns zero answers, and so does an MX query. -/
theorem claim_C6_witness :
    (sendFallbackOrEmpty { FallbackResponse := true, DefaultA := "127.0.0.1" }
        { question := [⟨"v.com.", QType.A⟩] }).answer =
      [RR.A "v.com." 0 "127.0.0.1"] ∧
    (sendFallbackOrEmpty { FallbackResponse := true, DefaultA := "127.0.0.1" }
        { question := [⟨"v.com.", QType.AAAA⟩] }).answer = [] ∧
    (sendFallbackOrEmpty { FallbackResponse := true, DefaultA := "127.0.0.1" }
        { question := [⟨"v.com.", QType.MX⟩] }).answer = [] :=
  ⟨(claim_C6_fallback_synthesis { FallbackResponse := true, DefaultA := "127.0.0.1" }
      (fun _ _ => (none, none)) (fun _ => 0) { question := [⟨"v.com.", QType.A⟩] }
      ⟨"v.com.", QType.A⟩ [] "A" rfl).2.2.2.2.2.1 rfl rfl (by decide),
   (claim_C6_fallback_synthesis { FallbackResponse := true, DefaultA := "127.0.0.1" }
      (fun _ _ => (none, none)) (fun _ => 0) { question := [⟨"v.com.", QType.AAAA⟩] }
      ⟨"v.com.", QType.AAAA⟩ [] "AAAA" rfl).2.2.2.2.1 rfl rfl,
   (claim_C6_fallback_synthesis { FallbackResponse := true, DefaultA := "127.0.0.1" }
      (fun _ _ => (none, none)) (fun _ => 0) { question := [⟨"v.com.", QType.MX⟩] }
      ⟨"v.com.", QType.MX⟩ [] "MX" rfl).2.2.1 (by decide) (by decide)⟩

/-- C2: a query whose first matching config rule has action forward is
answered entirely by the upstream resolver: the pipeline result equals
`forwardToUpstream` (which reads neither the record store nor the cache),
and it is unchanged under arbitrary replacement of the record store
contents and of the cache contents. -/
theorem claim_C2_forward_rule_bypasses_local_tiers
    (opts : Options) (cfg : List DNSRecord)
    (recs1 recs2 : String → Option DnsRecord)
    (cache1 cache2 : String → Option (List GobTok))
    (exchange : Exchange) (pick : Nat → Nat) (r : Msg) (q : Question)
    (qs : List Question) (rule : DNSRecord)
    (hq : r.question = q :: qs)
    (hfind : cfg.find? (fun rec =>
        matchesDomain (strTrimSuf q.name ".") rec.Domain &&
          rec.RType == typeToString q.qtype) = some rule)
    (hfw : rule.Action = "forward") :
    serveDNS ⟨{ opts with DnsRecords := recs1 }, some cfg⟩ cache1 exchange pick r =
      (forwardToUpstream { opts with DnsRecords := recs1 } exchange pick r
        (typeToString q.qtype)).toResult ∧
    serveDNS ⟨{ opts with DnsRecords := recs1 }, some cfg⟩ cache1 exchange pick r =
      serveDNS ⟨{ opts with DnsRecords := recs2 }, some cfg⟩ cache2 exchange pick r := by
  have hmain : ∀ (recs : String → Option DnsRecord)
      (cache : String → Option (List GobTok)),
      serveDNS ⟨{ opts with DnsRecords := recs }, some cfg⟩ cache exchange pick r =
        (forwardToUpstream { opts with DnsRecords := recs } exchange pick r
          (typeToString q.qtype)).toResult := by
    intro recs cache
    unfold serveDNS
    simp [hq, hfind, hfw]
  have hcong : forwardToUpstream { opts with DnsRecords := recs1 } exchange pick r
      (typeToString q.qtype) =
      forwardToUpstream { opts with DnsRecords := recs2 } exchange pick r
        (typeToString q.qtype) :=
    forward_congr _ _ _ _ _ _ rfl rfl rfl rfl rfl rfl
  exact ⟨hmain recs1 cache1, by rw [hmain recs1 cache1, hmain recs2 cache2, hcong]⟩

/-- C2, witness: a forward rule for `f.com`/A sends the query upstream even
though both the record store and the cache hold an entry for the domain. -/
theorem claim_C2_witness :
    serveDNS ⟨{ DnsRecords := fun _ => some { A := ["1.2.3.4"] } },
        some [{ Domain := "f.com", RType := "A", Action := "forward" }]⟩
      (fun _ => some (gobEncode { A := ["4.3.2.1"] })) (fun _ _ => (none, some "refused"))
      (fun _ => 0) { question := [⟨"f.com.", QType.A⟩] } =
      (forwardToUpstream { DnsRecords := fun _ => some { A := ["1.2.3.4"] } }
        (fun _ _ => (none, some "refused")) (fun _ => 0)
        { question := [⟨"f.com.", QType.A⟩] } "A").toResult :=
  (claim_C2_forward_rule_bypasses_local_tiers {}
    [{ Domain := "f.com", RType := "A", Action := "forward" }]
    (fun _ => some { A := ["1.2.3.4"] }) (fun _ => none)
    (fun _ => some (gobEncode { A := ["4.3.2.1"] })) (fun _ => none)
    (fun _ _ => (none, some "refused")) (fun _ => 0)
    { question := [⟨"f.com.", QType.A⟩] } ⟨"f.com.", QType.A⟩ []
    { Domain := "f.com", RType := "A", Action := "forward" } rfl (by decide)
    (by decide)).1

/-- C3: the retry count is clamped to a minimum of 1; each attempt asks the
server selected by the random oracle for that attempt; the first attempt
returning no error and a non-nil response is written immediately (no
further attempts, no sleep after it, 100ms slept after each earlier failed
attempt); and when every attempt fails the loop has slept
`100ms * (retries - 1)` and reports the error observed on the final
attempt. -/
theorem claim_C3_upstream_retry_policy (opts : Options) (exchange : Exchange)
    (pick : Nat → Nat) (r : Msg) (rt : String) :
    (∀ z : Int, 1 ≤ clampRetries z) ∧
    (∀ k m, opts.UpstreamServers.length ≠ 0 →
      k < clampRetries opts.UpstreamRetries →
      (∀ i, i < k → exchOK (exchange i (serverAt opts pick i)) = false) →
      exchange k (serverAt opts pick k) = (some m, none) →
      (forwardToUpstream opts exchange pick r rt).served = [m] ∧
      (forwardToUpstream opts exchange pick r rt).attempts = k + 1 ∧
      (forwardToUpstream opts exchange pick r rt).sleepMs = 100 * k ∧
      (forwardToUpstream opts exchange pick r rt).success = true) ∧
    (opts.UpstreamServers.length ≠ 0 →
      (∀ i, i < clampRetries opts.UpstreamRetries →
        exchOK (exchange i (serverAt opts pick i)) = false) →
      (forwardToUpstream opts exchange pick r rt).success = false ∧
      (forwardToUpstream opts exchange pick r rt).served = [sendFallbackOrEmpty opts r] ∧
      (forwardToUpstream opts exchange pick r rt).attempts = clampRetries opts.UpstreamRetries ∧
      (forwardToUpstream opts exchange pick r rt).sleepMs =
        100 * (clampRetries opts.UpstreamRetries - 1) ∧
      (forwardToUpstream opts exchange pick r rt).lastErr =
        (exchange (clampRetries opts.UpstreamRetries - 1)
          (serverAt opts pick (clampRetries opts.UpstreamRetries - 1))).2) := by
  refine ⟨?_, ?_, ?_⟩
  · intro z
    unfold clampRetries
    split <;> omega
  · intro k m hne hk hfail hex
    unfold forwardToUpstream
    rw [if_neg hne]
    have h := ua_first_success opts exchange pick r rt m k
      (clampRetries opts.UpstreamRetries) 0 none hk
      (by intro i hi; simpa using hfail i hi) (by simpa using hex)
    exact ⟨h.1, h.2.1, h.2.2.1, h.2.2.2.1⟩
  · intro hne hfail
    unfold forwardToUpstream
    rw [if_neg hne]
    have hpos : 0 < clampRetries opts.UpstreamRetries := by
      unfold clampRetries; split <;> omega
    have h := ua_all_fail opts exchange pick r rt
      (clampRetries opts.UpstreamRetries) 0 none hpos
      (by intro i hi; simpa using hfail i hi)
    simpa using h

/-- C3, witness: with `retries = 3` and two servers, an exchange failing on
attempt 0 and succeeding on attempt 1 is returned after exactly two
attempts and one 100ms sleep; an exchange failing on every attempt runs all
three attempts, sleeps 200ms and reports the last error; and a
non-positive retry option is clamped to one attempt. -/
theorem claim_C3_witness :
    (1 ≤ clampRetries (-5)) ∧
    ((forwardToUpstream { UpstreamServers := ["s1", "s2"], UpstreamRetries := 3 }
        (fun n _ => if n == 0 then (none, some "t0")
          else (some { answer := [RR.A "z.com." 60 "7.7.7.7"] }, none))
        (fun i => i) { question := [⟨"z.com.", QType.A⟩] } "A").served =
      [{ answer := [RR.A "z.com." 60 "7.7.7.7"] }] ∧
     (forwardToUpstream { UpstreamServers := ["s1", "s2"], UpstreamRetries := 3 }
        (fun n _ => if n == 0 then (none, some "t0")
          else (some { answer := [RR.A "z.com." 60 "7.7.7.7"] }, none))
        (fun i => i) { question := [⟨"z.com.", QType.A⟩] } "A").attempts = 2 ∧
     (forwardToUpstream { UpstreamServers := ["s1", "s2"], UpstreamRetries := 3 }
        (fun n _ => if n == 0 then (none, some "t0")
          else (some { answer := [RR.A "z.com." 60 "7.7.7.7"] }, none))
        (fun i => i) { question := [⟨"z.com.", QType.A⟩] } "A").sleepMs = 100 ∧
     (forwardToUpstream { UpstreamServers := ["s1", "s2"], UpstreamRetries := 3 }
        (fun n _ => if n == 0 then (none, some "t0")
          else (some { answer := [RR.A "z.com." 60 "7.7.7.7"] }, none))
        (fun i => i) { question := [⟨"z.com.", QType.A⟩] } "A").success = true) ∧
    ((forwardToUpstream { UpstreamServers := ["s1", "s2"], UpstreamRetries := 3 }
        (fun _ _ => (none, some "boom")) (fun i => i)
        { question := [⟨"z.com.", QType.A⟩] } "A").attempts = 3 ∧
     (forwardToUpstream { UpstreamServers := ["s1", "s2"], UpstreamRetries := 3 }
        (fun _ _ => (none, some "boom")) (fun i => i)
        { question := [⟨"z.com.", QType.A⟩] } "A").sleepMs = 200 ∧
     (forwardToUpstream { UpstreamServers := ["s1", "s2"], UpstreamRetries := 3 }
        (fun _ _ => (none, some "boom")) (fun i => i)
        { question := [⟨"z.com.", QType.A⟩] } "A").lastErr = some "boom") := by
  refine ⟨?_, ?_, ?_⟩
  · exact (claim_C3_upstream_retry_policy { UpstreamServers := ["s1"] }
      (fun _ _ => (none, none)) (fun _ => 0) {} "A").1 (-5)
  · have h := (claim_C3_upstream_retry_policy
      { UpstreamServers := ["s1", "s2"], UpstreamRetries := 3 }
      (fun n _ => if n == 0 then (none, some "t0")
        else (some { answer := [RR.A "z.com." 60 "7.7.7.7"] }, none))
      (fun i => i) { question := [⟨"z.com.", QType.A⟩] } "A").2.1 1
      { answer := [RR.A "z.com." 60 "7.7.7.7"] }
      (by decide) (by decide) (by decide) (by decide)
    exact ⟨h.1, h.2.1, h.2.2.1, h.2.2.2⟩
  · have h := (claim_C3_upstream_retry_policy
      { UpstreamServers := ["s1", "s2"], UpstreamRetries := 3 }
      (fun _ _ => (none, some "boom")) (fun i => i)
      { question := [⟨"z.com.", QType.A⟩] } "A").2.2
      (by decide) (by decide)
    exact ⟨h.2.2.1, h.2.2.2.1, h.2.2.2.2⟩

/-- Concrete state for the C1 counterexample: an exact record for `x.com`
holding only AAAA data, and a wildcard record holding A data. -/
def c1opts : Options :=
  { DnsRecords := fun s =>
      if s == "x.com" then some { AAAA := ["::1"] }
      else if s == "*" then some { A := ["10.0.0.1"] } else none }

/-- The C1 counterexample query: type A for `x.com.`. -/
def c1msg : Msg := { question := [⟨"x.com.", QType.A⟩] }

/-- C1, counterexample: on an A query for `x.com` the pipeline answers from
the exact-match tier with ZERO answer records (the exact record has only
AAAA data), even though the later wildcard tier applies and would produce a
non-empty A answer — so the response sent is not "the one produced by the
first tier that produces a non-empty, applicable answer". -/
theorem claim_C1_counterexample :
    (serveDNS ⟨c1opts, none⟩ (fun _ => none) (fun _ _ => (none, none)) (fun _ => 0)
        c1msg).written.map Msg.answer = [[]] ∧
    (memoryWildcardTier c1opts c1msg "x.com." QType.A).map
        (fun res => res.written.map Msg.answer) = some [[RR.A "x.com." 60 "10.0.0.1"]] := by
  decide

/-- C1 (amended): for every query the pipeline consults tiers in the fixed
order config rules, record-store exact match, record-store wildcard `*`,
disk cache (when enabled), upstream, fallback, and the response sent is the
one produced by the first tier that applies — a config rule matching domain
and type, a store key being present, cached bytes that gob-decode, or
upstream success — even when that tier's answer section is empty for the
queried type; no merging across tiers.  Unsupported query types skip the
record-store and cache tiers. -/
theorem claim_C1_pipeline_tier_order (t : Handler)
    (cache : String → Option (List GobTok)) (exchange : Exchange)
    (pick : Nat → Nat) (r : Msg) :
    serveDNS t cache exchange pick r = specTierCascade t cache exchange pick r :=
  serveDNS_eq_cascade t cache exchange pick r

/-- C7: across the whole pipeline, a cache write happens exactly when the
upstream tier succeeded (`upstreamMsg = some m`, which by construction of
the loop means some exchange returned no error and a non-nil response),
disk caching is enabled and the upstream answer section is non-empty — in
which case exactly the extracted record is written under the concatenated
key; all other terminal branches, including upstream success with an empty
answer section, leave the cache untouched. -/
theorem claim_C7_cache_write_condition (t : Handler)
    (cache : String → Option (List GobTok)) (exchange : Exchange)
    (pick : Nat → Nat) (r : Msg) :
    (serveDNS t cache exchange pick r).cacheWrites =
      (match (serveDNS t cache exchange pick r).upstreamMsg with
       | some m =>
         if t.options.UseDiskCache ∧ 0 < m.answer.length then
           [(cacheSetKey (qnameOf r) (typeToString (qtypeOf r)),
             gobEncode (extractDnsRecord m))]
         else []
       | none => []) := by
  rcases hq : r.question with _ | ⟨q, qs⟩
  · simp [serveDNS, hq]
  · have hname : qnameOf r = q.name := by simp [qnameOf, hq]
    have htype : qtypeOf r = q.qtype := by simp [qtypeOf, hq]
    simp only [serveDNS, handleDNSQuery, hq, hname, htype,
      List.length_cons, List.headD_cons, Nat.succ_ne_zero, if_false]
    rcases hc : t.config with _ | cfg <;>
      [skip;
       (rcases hf : cfg.find?
           (fun rec => matchesDomain (strTrimSuf q.name ".") rec.Domain &&
             rec.RType == typeToString q.qtype) with _ | rec0 <;>
        simp only [hf] <;>
        [skip;
         (rcases hact : rec0.Action == "forward" with _ | _ <;> try simp only [hact])])] <;>
      first
        | (simp [UpstreamTrace.toResult, forward_cacheWrites, hname]; done)
        | (rcases hrec : t.options.DnsRecords (strTrimSuf q.name ".") with _ | rec <;>
           rcases hwild : t.options.DnsRecords "*" with _ | wrec <;>
           cases hsup : QType.isSupported q.qtype <;>
           cases hdc : t.options.UseDiskCache <;>
           rcases hcache : cache (cacheGetKey q.name (typeToString q.qtype)) with _ | bs <;>
           first
             | (simp [hrec, hwild, hsup, hdc, hcache, UpstreamTrace.toResult,
                 forward_cacheWrites, hname]; done)
             | (rcases hdec : gobDecode bs with _ | rec2 <;>
                simp [hrec, hwild, hsup, hdc, hcache, hdec, UpstreamTrace.toResult,
                  forward_cacheWrites, hname]))

end TinyDns
